import Mathlib

/-!
Shallow embedding of the ProteoBench parameter-normalization modules
(proteobench/io/params/__init__.py, spectronaut.py, i2masschroq.py) and
theorems settling the specification claims about them.

Python values that can land in a record field are modelled by `PyVal`:
floating point numbers are kept symbolic (the constructor stores the
string the float was parsed from), since no claim inspects float
arithmetic.  Python exceptions are modelled by `PyErr` together with
`Except`.  Machine-level details (file handles, pandas internals) are
modelled by their observable behaviour: a file system is a partial map
from a path to the parsed content of the file at that path.
-/

/-- A Python runtime value as stored in a parameter-record attribute. -/
inductive PyVal where
  | none  : PyVal
  | bool  : Bool → PyVal
  | int   : Int → PyVal
  | str   : String → PyVal
  | float : String → PyVal
  deriving DecidableEq, Repr

/-- A Python exception, as far as the embedded code can raise one. -/
inductive PyErr where
  | fileNotFound   : PyErr
  | keyError       : String → PyErr
  | valueError     : PyErr
  | typeError      : PyErr
  | indexError     : PyErr
  | attributeError : PyErr
  deriving DecidableEq, Repr

/-- The closed field catalog of the `ProteoBenchParameters` dataclass:
the keys of `self.__dataclass_fields__`, in declaration order
(proteobench/io/params/__init__.py, the 22 declared fields). -/
def catalog : List String :=
  ["software_name", "software_version", "search_engine", "search_engine_version",
   "ident_fdr_psm", "ident_fdr_peptide", "ident_fdr_protein",
   "enable_match_between_runs", "precursor_mass_tolerance", "fragment_mass_tolerance",
   "enzyme", "allowed_miscleavages", "min_peptide_length", "max_peptide_length",
   "fixed_mods", "variable_mods", "max_mods", "min_precursor_charge",
   "max_precursor_charge", "quantification_method", "protein_inference",
   "abundance_normalization_ions"]

/-- A `ProteoBenchParameters` instance, modelled by its instance
dictionary: the attributes that have been assigned on the object, in
insertion order.  Declared fields that were never assigned are absent
here and resolve to `None` through the class-attribute defaults (see
`getattr`). -/
structure Record where
  attrs : List (String × PyVal)
  deriving DecidableEq, Repr

/-- Python attribute assignment on an instance dictionary: update in
place when the name is already present, append otherwise. -/
def setattrList : List (String × PyVal) → String → PyVal → List (String × PyVal)
  | [], n, v => [(n, v)]
  | (k, w) :: rest, n, v =>
    if k = n then (k, v) :: rest else (k, w) :: setattrList rest n v

/-- Python `setattr(record, name, value)`. -/
def Record.setattr (r : Record) (n : String) (v : PyVal) : Record :=
  ⟨setattrList r.attrs n v⟩

/-- Lookup in the instance dictionary only (what `self.__dict__` sees). -/
def Record.attrLookup (r : Record) (n : String) : Option PyVal :=
  r.attrs.lookup n

/-- Python `getattr`: the instance attribute when assigned, falling back
to the class-attribute default `None` for every declared field (the
dataclass stores each `field(default=None, init=False)` default as a
class attribute), and an absent attribute (`AttributeError`) otherwise,
modelled as `Option.none`. -/
def Record.getattr (r : Record) (n : String) : Option PyVal :=
  match r.attrs.lookup n with
  | some v => some v
  | Option.none => if catalog.contains n then some PyVal.none else Option.none

/-- A record with an empty instance dictionary: what the constructor
returns before (or without) any assignment. -/
def emptyRecord : Record := ⟨[]⟩

/-- One entry of the declarative field-definition document
(json/Quant/lfq/ion/DDA/fields.json): a JSON object with optional
`value` and `placeholder` keys. -/
structure FieldDef where
  valueKey : Option PyVal
  placeholderKey : Option PyVal
  deriving DecidableEq, Repr

/-- A parsed field-definition document: a JSON object keyed by field
name.  JSON object keys are unique; theorems carry that as a `Nodup`
hypothesis. -/
def Document := List (String × FieldDef)

/-- Processing of a single document entry by `ProteoBenchParameters.__init__`:
the attribute value it assigns, or `Option.none` when it assigns nothing
(neither key present, or the placeholder is the sentinel "-"). -/
def entryVal (fd : FieldDef) : Option PyVal :=
  match fd.valueKey with
  | some v => some v
  | Option.none =>
    match fd.placeholderKey with
    | some p => if p = PyVal.str "-" then Option.none else some p
    | Option.none => Option.none

/-- The loop body of `ProteoBenchParameters.__init__`: for a document
entry `(key, value)`, `if key in valid_fields: if "value" in value:
setattr(...) elif "placeholder" in value and value["placeholder"] != "-":
setattr(...)`. -/
def initStep (r : Record) (kv : String × FieldDef) : Record :=
  if catalog.contains kv.1 then
    match kv.2.valueKey with
    | some v => r.setattr kv.1 v
    | Option.none =>
      match kv.2.placeholderKey with
      | some p => if p ≠ PyVal.str "-" then r.setattr kv.1 p else r
      | Option.none => r
  else r

/-- The loop of `ProteoBenchParameters.__init__` over `json_dict.items()`. -/
def initFromDoc (doc : Document) : Record :=
  doc.foldl initStep emptyRecord

/-- `ProteoBenchParameters.__init__(filename)`: when the file at
`filename` does not exist (`Option.none` here), the error is printed and
the constructor returns with no field initialized; otherwise the JSON
document is read and the fields present in it are initialized. -/
def ProteoBenchParameters_init (doc : Option Document) : Record :=
  match doc with
  | Option.none => emptyRecord
  | some d => initFromDoc d

/-! String utilities modelling the Python string operations used by the
extractors.  They operate on `List Char`; whitespace is modelled by
`Char.isWhitespace` (the reports are ASCII apart from the box-drawing
glyphs handled explicitly). -/

/-- Python `str.strip()`: remove leading and trailing whitespace. -/
def pyStrip (s : String) : String :=
  String.mk (((s.toList.dropWhile Char.isWhitespace).reverse.dropWhile
    Char.isWhitespace).reverse)

/-- Index of the first occurrence of `sep` in `s` at or after offset `i`
(offsets counted from the initial call with `i = 0`). -/
def firstOccAux (sep : List Char) : List Char → Nat → Option Nat
  | [], i => if sep.isPrefixOf ([] : List Char) then some i else Option.none
  | c :: rest, i =>
    if sep.isPrefixOf (c :: rest) then some i else firstOccAux sep rest (i + 1)

/-- Index of the first occurrence of `sep` in `s`, if any. -/
def firstOccL (sep s : List Char) : Option Nat :=
  firstOccAux sep s 0

/-- Python substring membership `pat in s`. -/
def pyIn (pat s : String) : Bool :=
  (firstOccL pat.toList s.toList).isSome

/-- Fueled core of Python `str.split(sep)` for a nonempty separator:
split at each non-overlapping occurrence of `sep`, scanning left to
right.  The fuel argument only drives the recursion; `s.length` fuel is
always enough. -/
def pySplitF (sep : List Char) : Nat → List Char → List (List Char)
  | 0, s => [s]
  | Nat.succ fuel, s =>
    match s with
    | [] => [[]]
    | c :: rest =>
      if !sep.isEmpty && sep.isPrefixOf (c :: rest) then
        [] :: pySplitF sep fuel ((c :: rest).drop sep.length)
      else
        match pySplitF sep fuel rest with
        | [] => [[c]]
        | g :: gs => (c :: g) :: gs

/-- Python `s.split(sep)` for a nonempty separator.  (Python raises
`ValueError` on an empty separator; every separator passed by the
embedded code is a nonempty label.) -/
def pySplitStr (s sep : String) : List String :=
  (pySplitF sep.toList s.toList.length s.toList).map String.mk

/-- Fueled core of Python `str.replace(pat, rep)` for a nonempty
pattern: replace every non-overlapping occurrence, scanning left to
right. -/
def pyReplaceF (pat rep : List Char) : Nat → List Char → List Char
  | 0, s => s
  | Nat.succ fuel, s =>
    match s with
    | [] => []
    | c :: rest =>
      if !pat.isEmpty && pat.isPrefixOf (c :: rest) then
        rep ++ pyReplaceF pat rep fuel ((c :: rest).drop pat.length)
      else
        c :: pyReplaceF pat rep fuel rest

/-- Python `s.replace(pat, rep)` for a nonempty pattern. -/
def pyReplace (s pat rep : String) : String :=
  String.mk (pyReplaceF pat.toList rep.toList s.toList.length s.toList)

/-- Helper of `pySplitWS`: accumulate the current word (reversed). -/
def wsSplitAux : List Char → List Char → List (List Char)
  | [], acc => if acc.isEmpty then [] else [acc.reverse]
  | c :: rest, acc =>
    if c.isWhitespace then
      if acc.isEmpty then wsSplitAux rest [] else acc.reverse :: wsSplitAux rest []
    else wsSplitAux rest (c :: acc)

/-- Python `str.split()` with no argument: split on runs of whitespace,
discarding empty pieces. -/
def pySplitWS (s : String) : List String :=
  (wsSplitAux s.toList []).map String.mk

/-- Split a list at every occurrence of the single element `c`. -/
def splitOnChar (c : Char) : List Char → List (List Char)
  | [] => [[]]
  | x :: rest =>
    if x = c then [] :: splitOnChar c rest
    else
      match splitOnChar c rest with
      | [] => [[x]]
      | g :: gs => (x :: g) :: gs

/-- Nonempty and all decimal digits. -/
def isDigitList (l : List Char) : Bool :=
  !l.isEmpty && l.all Char.isDigit

/-- Python `int(s)` on a string: strip whitespace, optional sign, then
decimal digits; anything else raises `ValueError`.  (Underscore digit
separators and non-ASCII digits are not modelled; no embedded input uses
them.) -/
def pyInt (s : String) : Except PyErr Int :=
  match (pyStrip s).toList with
  | '-' :: ds =>
    if isDigitList ds then Except.ok (-(Int.ofNat (ds.foldl (fun n c => 10 * n + (c.toNat - 48)) 0)))
    else Except.error PyErr.valueError
  | '+' :: ds =>
    if isDigitList ds then Except.ok (Int.ofNat (ds.foldl (fun n c => 10 * n + (c.toNat - 48)) 0))
    else Except.error PyErr.valueError
  | ds =>
    if isDigitList ds then Except.ok (Int.ofNat (ds.foldl (fun n c => 10 * n + (c.toNat - 48)) 0))
    else Except.error PyErr.valueError

/-- Mantissa part of a Python float literal: digits with at most one
dot and at least one digit. -/
def mantissaOk (l : List Char) : Bool :=
  match splitOnChar '.' l with
  | [a] => isDigitList a
  | [a, b] => a.all Char.isDigit && b.all Char.isDigit && (!a.isEmpty || !b.isEmpty)
  | _ => false

/-- Exponent part of a Python float literal: optional sign then digits. -/
def exponentOk (l : List Char) : Bool :=
  match l with
  | '+' :: r => isDigitList r
  | '-' :: r => isDigitList r
  | r => isDigitList r

/-- Whether Python `float(s)` succeeds on the string `s`. -/
def pyFloatOk (s : String) : Bool :=
  let t := (pyStrip s).toList.map Char.toLower
  let core := match t with
    | '+' :: r => r
    | '-' :: r => r
    | r => r
  if core = "inf".toList || core = "infinity".toList || core = "nan".toList then true
  else
    match splitOnChar 'e' core with
    | [m] => mantissaOk m
    | [m, ex] => mantissaOk m && exponentOk ex
    | _ => false

/-! The shared field-extraction utility of spectronaut.py and the two
extractors. -/

/-- The split-on-label utility `extract_value(lines, search_term)` of
spectronaut.py: the first line containing the label, split on the label,
second piece, stripped; `None` when no line contains the label. -/
def extract_value (lines : List String) (searchTerm : String) : Option String :=
  match lines.find? (fun line => pyIn searchTerm line) with
  | Option.none => Option.none
  | some line => some (pyStrip ((pySplitStr line searchTerm).getD 1 ""))

/-- Remainder of `s` after the first occurrence of `sep` (unused
placeholder when `sep` does not occur). -/
def afterFirstL (sep s : List Char) : List Char :=
  match firstOccL sep s with
  | Option.none => s
  | some i => s.drop (i + sep.length)

/-- Portion of `s` before the next occurrence of `sep`, all of `s` when
`sep` does not occur. -/
def beforeNextL (sep s : List Char) : List Char :=
  match firstOccL sep s with
  | Option.none => s
  | some j => s.take j

/-- The split-on-label utility as the specification words it: the
whitespace-trimmed remainder of the first matching line after the first
occurrence of the label.  Stated for comparison with `extract_value`. -/
def extract_value_spec (lines : List String) (searchTerm : String) : Option String :=
  match lines.find? (fun line => pyIn searchTerm line) with
  | Option.none => Option.none
  | some line =>
    some (pyStrip (String.mk (afterFirstL searchTerm.toList line.toList)))

/-! The Spectronaut extractor (spectronaut.py, read_spectronaut_settings). -/

/-- Value stored by an assignment `params.x = extract_value(...)`:
the string when found, `None` otherwise. -/
def optPyVal : Option String → PyVal
  | some s => PyVal.str s
  | Option.none => PyVal.none

/-- The prefix stripping `re.sub` applied to every line:
remove leading whitespace and box-drawing characters
(the regex class of whitespace plus the three glyphs and the bar). -/
def stripStructural (s : String) : String :=
  String.mk (s.toList.dropWhile
    (fun c => c.isWhitespace || c = '│' || c = '├' || c = '─' || c = '└'))

/-- The Spectronaut extractor `read_spectronaut_settings(file_path)`.
The first argument models the content of the default field-definition
document read by `ProteoBenchParameters()` (absent in this repository
snapshot); the second models the file system as a map from a path to the
list of lines `readlines()` returns for the file there. -/
def read_spectronaut_settings (fieldsDoc : Option Document)
    (fs : String → Option (List String)) (file_path : String) :
    Except PyErr Record :=
  match fs file_path with
  | Option.none => Except.error PyErr.fileNotFound
  | some rawLines => do
    let lines := rawLines.map pyStrip
    let params := ProteoBenchParameters_init fieldsDoc
    let params := params.setattr "software_name" (PyVal.str "Spectronaut")
    let line0 ← match lines.head? with
      | some l => pure l
      | Option.none => Except.error PyErr.indexError
    let version ← match (pySplitWS line0).get? 1 with
      | some v => pure v
      | Option.none => Except.error PyErr.indexError
    let params := params.setattr "software_version" (PyVal.str version)
    let params := params.setattr "search_engine" (PyVal.str "Spectronaut")
    let params := params.setattr "search_engine_version" (PyVal.str version)
    let lines := lines.map (fun l => pyStrip (stripStructural l))
    let params := params.setattr "ident_fdr_psm"
      (optPyVal (extract_value lines "Precursor Qvalue Cutoff:"))
    let params := params.setattr "ident_fdr_peptide" PyVal.none
    let params := params.setattr "ident_fdr_protein"
      (optPyVal (extract_value lines "Protein Qvalue Cutoff (Experiment):"))
    let params := params.setattr "enable_match_between_runs" PyVal.none
    let params := params.setattr "precursor_mass_tolerance"
      (optPyVal (extract_value lines "MS1 Mass Tolerance Strategy:"))
    let params := params.setattr "fragment_mass_tolerance"
      (optPyVal (extract_value lines "MS2 Mass Tolerance Strategy:"))
    let params := params.setattr "enzyme"
      (optPyVal (extract_value lines "Enzymes / Cleavage Rules:"))
    let params := params.setattr "allowed_miscleavages"
      (optPyVal (extract_value lines "Missed Cleavages:"))
    let params := params.setattr "max_peptide_length"
      (optPyVal (extract_value lines "Max Peptide Length:"))
    let params := params.setattr "min_peptide_length"
      (optPyVal (extract_value lines "Min Peptide Length:"))
    let params := params.setattr "fixed_mods"
      (optPyVal (extract_value lines "Fixed Modifications:"))
    let params := params.setattr "variable_mods"
      (optPyVal (extract_value lines "^Variable Modifications:"))
    let params := params.setattr "max_mods"
      (optPyVal (extract_value lines "Max Variable Modifications:"))
    let params := params.setattr "min_precursor_charge"
      (optPyVal (extract_value lines "Peptide Charge:"))
    let params := params.setattr "max_precursor_charge"
      (optPyVal (extract_value lines "Peptide Charge:"))
    let params := params.setattr "scan_window"
      (optPyVal (extract_value lines "XIC IM Extraction Window:"))
    let params := params.setattr "quantification_method"
      (optPyVal (extract_value lines "Quantity MS Level:"))
    let params := params.setattr "second_pass"
      (optPyVal (extract_value lines "directDIA Workflow:"))
    let params := params.setattr "protein_inference"
      (optPyVal (extract_value lines "Inference Algorithm:"))
    let params := params.setattr "predictors_library"
      (optPyVal (extract_value lines "Hybrid (DDA + DIA) Library"))
    pure params

/-! The i2MassChroQ extractor (i2masschroq.py, extract_params). -/

/-- One parsed cell of the tab-separated parameter dump: the second
column of a row, `Option.none` when the column is empty (pandas reads it
as NaN). -/
def Cell := Option String
deriving instance DecidableEq, Repr for Cell

/-- The pandas Series `pd.read_csv(fname, sep="\t", header=None,
index_col=0).squeeze()`: rows in file order, keyed by the first column. -/
def Series := List (String × Cell)
deriving instance DecidableEq, Repr for Series

/-- Row lookup by key, in file order. -/
def seriesGet (s : Series) (k : String) : Option Cell :=
  List.lookup k s

/-- `params.loc[key]`: the cell at `key`, raising `KeyError` when the
key is absent.  (The parameter dumps have unique keys; a duplicated key
is modelled as first-match.) -/
def locE (s : Series) (k : String) : Except PyErr Cell :=
  match seriesGet s k with
  | some c => Except.ok c
  | Option.none => Except.error (PyErr.keyError k)

/-- Python `str(x)` of a cell: the string itself, and `str(nan) = "nan"`
for an empty cell. -/
def pyStrOfCell : Cell → String
  | some s => s
  | Option.none => "nan"

/-- A string-method receiver: `.replace` on a NaN cell raises
`AttributeError` (floats have no `replace`). -/
def cellStrMethod : Cell → Except PyErr String
  | some s => Except.ok s
  | Option.none => Except.error PyErr.attributeError

/-- Python `cell == t` for a string literal `t`: NaN compares unequal to
every string. -/
def cellEqStr (c : Cell) (t : String) : Bool :=
  match c with
  | some s => s = t
  | Option.none => false

/-- The raw cell as a record value: the string, or the float NaN. -/
def cellPyVal : Cell → PyVal
  | some s => PyVal.str s
  | Option.none => PyVal.float "nan"

/-- Python `int(cell)`: `int` of the string (see `pyInt`); `int(nan)`
raises `ValueError`. -/
def pyIntOfCell : Cell → Except PyErr Int
  | some s => pyInt s
  | Option.none => Except.error PyErr.valueError

/-- Python `float(cell)`: NaN stays NaN, a string is parsed (kept
symbolic, see `PyVal.float`), an unparsable string raises `ValueError`. -/
def pyFloatOfCell : Cell → Except PyErr PyVal
  | some s =>
    if pyFloatOk s then Except.ok (PyVal.float (pyStrip s)) else Except.error PyErr.valueError
  | Option.none => Except.ok (PyVal.float "nan")

/-- Python `str(cell or "")`: NaN is truthy (`str(nan) = "nan"`), the
empty string is falsy and yields `""`. -/
def pyOrEmptyStr : Cell → String
  | some s => if s = "" then "" else s
  | Option.none => "nan"

/-- `list(params.loc[params.index.str.contains(pat)].dropna())`: values
of the rows whose key contains `pat` (the patterns used contain no regex
metacharacters), dropping NaN cells, in file order. -/
def modsRows (s : Series) (pat : String) : List String :=
  (s.filter (fun kv => pyIn pat kv.1)).filterMap (fun kv => kv.2)

/-- Python `";".join(l)`. -/
def joinSemicolon (l : List String) : String :=
  String.intercalate ";" l

/-- The field values `extract_params` computes and passes as keyword
arguments to the `ProteoBenchParameters(...)` call, one field per
keyword argument of that call. -/
structure I2mqFields where
  software_name : PyVal
  software_version : PyVal
  search_engine : PyVal
  search_engine_version : PyVal
  ident_fdr_psm : PyVal
  ident_fdr_peptide : PyVal
  ident_fdr_protein : PyVal
  enable_match_between_runs : PyVal
  precursor_mass_tolerance : PyVal
  fragment_mass_tolerance : PyVal
  enzyme : PyVal
  allowed_miscleavages : PyVal
  min_peptide_length : PyVal
  max_peptide_length : PyVal
  fixed_mods : PyVal
  variable_mods : PyVal
  max_mods : PyVal
  min_precursor_charge : PyVal
  max_precursor_charge : PyVal
  deriving DecidableEq, Repr

/-- The missed-cleavage derivation of `extract_params`: the value read
from `scoring, maximum missed cleavage sites`, superseded by the integer
parsed from `refine, maximum missed cleavage sites` when `refine` is
`yes`. -/
def refinedCleavage (s : Series) (maxCleavage0 refineCell : Cell) :
    Except PyErr PyVal :=
  if cellEqStr refineCell "yes" then do
    let rc ← locE s "refine, maximum missed cleavage sites"
    let n ← pyIntOfCell rc
    pure (PyVal.int n)
  else
    pure (cellPyVal maxCleavage0)

/-- The hidden-modification injection of `extract_params`: under
X!Tandem, append the implicit N-terminal modifications enabled by the
quick-acetyl and quick-pyrolidone toggles. -/
def hiddenMods (s : Series) (swName : Cell) (varModsList0 : List String) :
    Except PyErr (List String) :=
  if cellEqStr swName "X!Tandem" || cellEqStr swName "X! Tandem" then do
    let qa ← locE s "protein, quick acetyl"
    let v1 := if cellEqStr qa "yes" then varModsList0 ++ ["Acetyl(N-term)"] else varModsList0
    let qp ← locE s "protein, quick pyrolidone"
    pure (if cellEqStr qp "yes" then v1 ++ ["Pyrolidone(N-term)"] else v1)
  else
    pure varModsList0

/-- The body of `extract_params` up to and including the evaluation of
every keyword-argument expression of the final `ProteoBenchParameters(...)`
call, in source statement and argument order. -/
def i2mq_compute (s : Series) : Except PyErr I2mqFields := do
  let fragErr ← locE s "spectrum, fragment monoisotopic mass error"
  let fragUnitsCell ← locE s "spectrum, fragment monoisotopic mass error units"
  let fragUnits ← cellStrMethod fragUnitsCell
  let tolFrag := pyStrOfCell fragErr ++ " " ++ pyReplace fragUnits "Daltons" "Da"
  let precMinus ← locE s "spectrum, parent monoisotopic mass error minus"
  let precUnitsCell1 ← locE s "spectrum, parent monoisotopic mass error units"
  let precUnits1 ← cellStrMethod precUnitsCell1
  let tolPrecLower := pyStrOfCell precMinus ++ " " ++ pyReplace precUnits1 "Daltons" "Da"
  let precPlus ← locE s "spectrum, parent monoisotopic mass error plus"
  let precUnitsCell2 ← locE s "spectrum, parent monoisotopic mass error units"
  let precUnits2 ← cellStrMethod precUnitsCell2
  let tolPrecUpper := pyStrOfCell precPlus ++ " " ++ pyReplace precUnits2 "Daltons" "Da"
  let maxCleavage0 ← locE s "scoring, maximum missed cleavage sites"
  let refineCell ← locE s "refine"
  let maxCleavage ← refinedCleavage s maxCleavage0 refineCell
  let enzCell ← locE s "protein, cleavage site"
  let enz0 := pyStrOfCell enzCell
  let enzyme :=
    if enz0 = "[RK]|\x7bP\x7d" then "Trypsin"
    else if enz0 = "[RK]" then "Trypsin/P"
    else enz0
  let fixedModsList := modsRows s "residue, modification mass"
  let varModsList0 := modsRows s "residue, potential modification mass"
  let swName ← locE s "AnalysisSoftware_name"
  let varModsList ← hiddenMods s swName varModsList0
  let versionCell ← locE s "i2MassChroQ_VERSION"
  let swNameCell2 ← locE s "AnalysisSoftware_name"
  let sevCell ← locE s "AnalysisSoftware_version"
  let psmCell ← locE s "psm_fdr"
  let psm ← pyFloatOfCell psmCell
  let pepCell ← locE s "peptide_fdr"
  let pep ← pyFloatOfCell pepCell
  let protCell ← locE s "protein_fdr"
  let prot ← pyFloatOfCell protCell
  let mbrCell ← locE s "mcq_mbr"
  let chargeCell ← locE s "spectrum, maximum parent charge"
  let maxCharge ← pyIntOfCell chargeCell
  pure {
    software_name := PyVal.str "i2MassChroQ"
    software_version := cellPyVal versionCell
    search_engine := cellPyVal swNameCell2
    search_engine_version := PyVal.str (pyOrEmptyStr sevCell)
    ident_fdr_psm := psm
    ident_fdr_peptide := pep
    ident_fdr_protein := prot
    enable_match_between_runs := PyVal.bool (cellEqStr mbrCell "T")
    precursor_mass_tolerance := PyVal.str ("[-" ++ tolPrecLower ++ ", " ++ tolPrecUpper ++ "]")
    fragment_mass_tolerance := PyVal.str ("[-" ++ tolFrag ++ ", " ++ tolFrag ++ "]")
    enzyme := PyVal.str enzyme
    allowed_miscleavages := maxCleavage
    min_peptide_length := PyVal.none
    max_peptide_length := PyVal.none
    fixed_mods := PyVal.str (joinSemicolon fixedModsList)
    variable_mods := PyVal.str (joinSemicolon varModsList)
    max_mods := PyVal.none
    min_precursor_charge := PyVal.int 1
    max_precursor_charge := PyVal.int maxCharge
  }

/-- The keyword arguments of the final `ProteoBenchParameters(...)` call
of `extract_params`, in call order. -/
def i2mq_kwargs (f : I2mqFields) : List (String × PyVal) :=
  [("software_name", f.software_name),
   ("software_version", f.software_version),
   ("search_engine", f.search_engine),
   ("search_engine_version", f.search_engine_version),
   ("ident_fdr_psm", f.ident_fdr_psm),
   ("ident_fdr_peptide", f.ident_fdr_peptide),
   ("ident_fdr_protein", f.ident_fdr_protein),
   ("enable_match_between_runs", f.enable_match_between_runs),
   ("precursor_mass_tolerance", f.precursor_mass_tolerance),
   ("fragment_mass_tolerance", f.fragment_mass_tolerance),
   ("enzyme", f.enzyme),
   ("allowed_miscleavages", f.allowed_miscleavages),
   ("min_peptide_length", f.min_peptide_length),
   ("max_peptide_length", f.max_peptide_length),
   ("fixed_mods", f.fixed_mods),
   ("variable_mods", f.variable_mods),
   ("max_mods", f.max_mods),
   ("min_precursor_charge", f.min_precursor_charge),
   ("max_precursor_charge", f.max_precursor_charge)]

/-- The parameter names of `ProteoBenchParameters.__init__` other than
`self`: the constructor accepts only `filename`. -/
def initParamNames : List String := ["filename"]

/-- Python keyword-argument binding for a call
`ProteoBenchParameters(**kwargs)`: a keyword argument whose name is not
a parameter of `__init__` raises `TypeError`.  When every name binds
(only `filename` can), the `__init__` body runs; the call sites in this
development never reach that branch, which is modelled as the
default-initialized record of a missing document. -/
def dataclassCallKwargs (kwargs : List (String × PyVal)) : Except PyErr Record :=
  if kwargs.all (fun kv => initParamNames.contains kv.1) then
    Except.ok (ProteoBenchParameters_init Option.none)
  else Except.error PyErr.typeError

/-- The i2MassChroQ extractor `extract_params(fname)`.  The file system
maps a path to the parsed key/value rows of the file there;
`pd.read_csv` raises `FileNotFoundError` when the path does not exist,
before any parsing. -/
def extract_params (fs : String → Option Series) (fname : String) :
    Except PyErr Record := do
  let s ← match fs fname with
    | Option.none => Except.error PyErr.fileNotFound
    | some rows => pure rows
  let f ← i2mq_compute s
  dataclassCallKwargs (i2mq_kwargs f)

deriving instance DecidableEq for Except

/-! Concrete inputs used by witnesses and counterexamples. -/

/-- A file system holding one small Spectronaut settings report. -/
def spectroFS : String → Option (List String) :=
  fun p =>
    if p = "settings.txt" then
      some ["Spectronaut 18.7", "│  Missed Cleavages: 2"]
    else Option.none

/-- Projection used by concrete evaluations: the assigned attribute
names of an extraction result. -/
def attrNamesOf : Except PyErr Record → List String
  | Except.ok r => r.attrs.map Prod.fst
  | Except.error _ => []

/-- Projection used by concrete evaluations: the value assigned to an
attribute of an extraction result. -/
def attrValOf (x : Except PyErr Record) (n : String) : Option PyVal :=
  match x with
  | Except.ok r => r.attrs.lookup n
  | Except.error _ => Option.none

/-- A concrete parsed i2MassChroQ parameter dump with every mandatory
key present, `refine` disabled, a parts-per-million parent tolerance and
a Dalton fragment tolerance. -/
def wSeries : Series :=
  [("i2MassChroQ_VERSION", some "1.0.1"),
   ("AnalysisSoftware_name", some "Sage"),
   ("AnalysisSoftware_version", some "0.14"),
   ("psm_fdr", some "0.01"),
   ("peptide_fdr", some "0.01"),
   ("protein_fdr", some "0.01"),
   ("mcq_mbr", some "T"),
   ("spectrum, fragment monoisotopic mass error", some "0.02"),
   ("spectrum, fragment monoisotopic mass error units", some "Daltons"),
   ("spectrum, parent monoisotopic mass error minus", some "10"),
   ("spectrum, parent monoisotopic mass error plus", some "10"),
   ("spectrum, parent monoisotopic mass error units", some "ppm"),
   ("scoring, maximum missed cleavage sites", some "2"),
   ("refine", some "no"),
   ("protein, cleavage site", some "[RK]|\x7bP\x7d"),
   ("spectrum, maximum parent charge", some "4")]

/-- The field values `i2mq_compute` produces on `wSeries`. -/
def wFields : I2mqFields :=
  { software_name := PyVal.str "i2MassChroQ"
    software_version := PyVal.str "1.0.1"
    search_engine := PyVal.str "Sage"
    search_engine_version := PyVal.str "0.14"
    ident_fdr_psm := PyVal.float "0.01"
    ident_fdr_peptide := PyVal.float "0.01"
    ident_fdr_protein := PyVal.float "0.01"
    enable_match_between_runs := PyVal.bool true
    precursor_mass_tolerance := PyVal.str "[-10 ppm, 10 ppm]"
    fragment_mass_tolerance := PyVal.str "[-0.02 Da, 0.02 Da]"
    enzyme := PyVal.str "Trypsin"
    allowed_miscleavages := PyVal.str "2"
    min_peptide_length := PyVal.none
    max_peptide_length := PyVal.none
    fixed_mods := PyVal.str ""
    variable_mods := PyVal.str ""
    max_mods := PyVal.none
    min_precursor_charge := PyVal.int 1
    max_precursor_charge := PyVal.int 4 }

/-- A file system holding `wSeries` at one path. -/
def wFS : String → Option Series :=
  fun p => if p = "i2m.tsv" then some wSeries else Option.none

/-- A concrete field-definition document: a set value, a sentinel
placeholder, and a key outside the catalog. -/
def wDoc : Document :=
  [("enzyme", ⟨some (PyVal.str "Trypsin"), some (PyVal.str "x")⟩),
   ("max_mods", ⟨Option.none, some (PyVal.str "-")⟩),
   ("not_a_field", ⟨some (PyVal.str "z"), Option.none⟩)]

/-! File-system operations performed by the extractors, traced from the
source: which primitives touch the path, and in which order.  This makes
the difference between an explicit existence check and a failure
discovered at the read call itself statable. -/

/-- A file-system primitive applied to a path. -/
inductive FsOp where
  | existsCheck : String → FsOp
  | openRead : String → FsOp
  deriving DecidableEq, Repr

/-- The file-system operations of `read_spectronaut_settings`, in
source order: `Path(file_path).exists()` first (spectronaut.py, the
guard that raises `FileNotFoundError`), then `open(file_path)`. -/
def spectronaut_fsOps (p : String) : List FsOp :=
  [FsOp.existsCheck p, FsOp.openRead p]

/-- The file-system operations of `extract_params`, in source order:
only `pd.read_csv(fname, ...)`, which opens the path directly — the
source contains no existence check. -/
def i2mq_fsOps (p : String) : List FsOp :=
  [FsOp.openRead p]

/-! Inversion lemmas for the `Except` monad and the row lookups. -/

/-- A bind yields `ok` exactly when both stages do. -/
theorem bind_ok_iff {α β : Type} (x : Except PyErr α) (g : α → Except PyErr β) (b : β) :
    (x >>= g = Except.ok b) ↔ ∃ a, x = Except.ok a ∧ g a = Except.ok b := by
  cases x with
  | error e => simp [Bind.bind, Except.bind]
  | ok a => simp [Bind.bind, Except.bind]

/-- A `pure` yields `ok` of exactly its argument. -/
theorem pure_ok_iff {α : Type} (a b : α) :
    ((pure a : Except PyErr α) = Except.ok b) ↔ a = b := by
  simp [pure, Except.pure]

/-- A `.loc` access succeeds exactly on a present key. -/
theorem locE_ok_iff (s : Series) (k : String) (c : Cell) :
    locE s k = Except.ok c ↔ seriesGet s k = some c := by
  unfold locE
  cases seriesGet s k <;> simp

/-- A string-method receiver is exactly a non-NaN cell. -/
theorem cellStrMethod_ok_iff (c : Cell) (u : String) :
    cellStrMethod c = Except.ok u ↔ c = some u := by
  cases c with
  | none => simp [cellStrMethod]
  | some v =>
    simp only [cellStrMethod, Except.ok.injEq]
    exact ⟨fun h => by rw [h], fun h => Option.some.inj h⟩

/-! Lemmas on instance-dictionary assignment and the defaulting loop. -/

/-- Assignment makes the assigned name resolve to the assigned value. -/
theorem lookup_setattrList_self (l : List (String × PyVal)) (n : String) (v : PyVal) :
    (setattrList l n v).lookup n = some v := by
  induction l with
  | nil => simp [setattrList]
  | cons kv rest ih =>
    obtain ⟨k, w⟩ := kv
    by_cases h : k = n
    · subst h
      simp [setattrList]
    · have hb : (n == k) = false := beq_eq_false_iff_ne.mpr (Ne.symm h)
      simp [setattrList, h, List.lookup, hb, ih]

/-- Assignment leaves every other name unchanged. -/
theorem lookup_setattrList_ne (l : List (String × PyVal)) (k n : String) (v : PyVal)
    (h : n ≠ k) :
    (setattrList l k v).lookup n = l.lookup n := by
  have hb : (n == k) = false := beq_eq_false_iff_ne.mpr h
  induction l with
  | nil => simp [setattrList, List.lookup, hb]
  | cons kv rest ih =>
    obtain ⟨k0, w⟩ := kv
    by_cases h0 : k0 = k
    · subst h0
      simp [setattrList, List.lookup, hb]
    · simp [setattrList, h0, List.lookup, ih]

/-- One defaulting-loop step does not touch other keys. -/
theorem initStep_lookup_ne (r : Record) (kv : String × FieldDef) (n : String)
    (h : n ≠ kv.1) :
    (initStep r kv).attrs.lookup n = r.attrs.lookup n := by
  obtain ⟨k, fd⟩ := kv
  unfold initStep Record.setattr
  rcases fd with ⟨v?, p?⟩
  rcases v? with _ | v <;> rcases p? with _ | p <;>
    simp only [] <;> split <;>
    first
      | rfl
      | (split <;> simp [lookup_setattrList_ne, h])
      | simp [lookup_setattrList_ne, h]

/-- One defaulting-loop step on its own catalog key: assign the entry
value when there is one, keep the previous binding otherwise. -/
theorem initStep_lookup_self (r : Record) (k : String) (fd : FieldDef)
    (hk : catalog.contains k = true) :
    (initStep r (k, fd)).attrs.lookup k =
      match entryVal fd with
      | some v => some v
      | Option.none => r.attrs.lookup k := by
  have hk2 : k ∈ catalog := by simpa using hk
  unfold initStep entryVal Record.setattr
  rcases fd with ⟨v?, p?⟩
  rcases v? with _ | v
  · rcases p? with _ | p
    · simp [hk]
    · by_cases hp : p = PyVal.str "-"
      · simp [hk, hp]
      · simp [hk, hk2, hp, lookup_setattrList_self]
  · simp [hk, hk2, lookup_setattrList_self]

/-- The defaulting loop does not touch keys outside the document. -/
theorem foldl_initStep_not_mem (doc : Document) (r : Record) (n : String)
    (h : ¬ n ∈ doc.map Prod.fst) :
    (doc.foldl initStep r).attrs.lookup n = r.attrs.lookup n := by
  induction doc generalizing r with
  | nil => rfl
  | cons hd tl ih =>
    simp only [List.map_cons, List.mem_cons, not_or] at h
    simp only [List.foldl_cons]
    rw [ih (initStep r hd) h.2, initStep_lookup_ne r hd n h.1]

/-- The defaulting loop, over any starting record: with unique document
keys, each catalog key ends at its own entry value, or keeps its
previous binding when its entry assigns nothing or is absent. -/
theorem foldl_initStep_lookup (doc : Document) (r : Record) (k : String)
    (hnd : (doc.map Prod.fst).Nodup) (hk : catalog.contains k = true) :
    (doc.foldl initStep r).attrs.lookup k =
      match doc.lookup k with
      | some fd =>
        (match entryVal fd with
         | some v => some v
         | Option.none => r.attrs.lookup k)
      | Option.none => r.attrs.lookup k := by
  induction doc generalizing r with
  | nil => rfl
  | cons hd tl ih =>
    obtain ⟨k0, fd0⟩ := hd
    simp only [List.map_cons, List.nodup_cons] at hnd
    by_cases hkk : k = k0
    · subst hkk
      have hb : (k == k) = true := beq_self_eq_true k
      simp only [List.foldl_cons, List.lookup, hb]
      rw [foldl_initStep_not_mem tl (initStep r (k, fd0)) k hnd.1]
      exact initStep_lookup_self r k fd0 hk
    · have hb : (k == k0) = false := beq_eq_false_iff_ne.mpr hkk
      simp only [List.foldl_cons, List.lookup, hb]
      rw [ih (initStep r (k0, fd0)) hnd.2,
        initStep_lookup_ne r (k0, fd0) k hkk]

/-! Characterization of the split-on-label utility. -/

/-- A nonempty list is not `isEmpty`. -/
theorem ne_nil_isEmpty_false (l : List Char) (h : l ≠ []) : l.isEmpty = false := by
  cases l with
  | nil => exact absurd rfl h
  | cons a as => rfl

/-- A nonempty pattern never occurs in the empty word. -/
theorem isPrefixOf_nil_of_ne (sep : List Char) (h : sep ≠ []) :
    sep.isPrefixOf ([] : List Char) = false := by
  cases sep with
  | nil => exact absurd rfl h
  | cons a as => rfl

/-- First-occurrence search only shifts the reported offset. -/
theorem firstOccAux_shift (sep : List Char) : ∀ (s : List Char) (i : Nat),
    firstOccAux sep s i = (firstOccAux sep s 0).map (fun j => j + i) := by
  intro s
  induction s with
  | nil =>
    intro i
    simp only [firstOccAux]
    split <;> simp
  | cons c rest ih =>
    intro i
    simp only [firstOccAux]
    split
    · simp
    · rw [ih (i + 1), ih 1, Option.map_map]
      congr 1
      funext j
      simp only [Function.comp]
      omega

/-- No occurrence of a nonempty pattern in the empty word. -/
theorem firstOccL_nil (sep : List Char) (h : sep ≠ []) :
    firstOccL sep ([] : List Char) = Option.none := by
  simp [firstOccL, firstOccAux, isPrefixOf_nil_of_ne sep h]

/-- First occurrence in a cons: at the head, or one further. -/
theorem firstOccL_cons (sep : List Char) (c : Char) (rest : List Char) :
    firstOccL sep (c :: rest) =
      if sep.isPrefixOf (c :: rest) then some 0
      else (firstOccL sep rest).map (fun j => j + 1) := by
  unfold firstOccL
  rw [firstOccAux]
  split
  · rfl
  · exact firstOccAux_shift sep rest 1

/-- The split never returns an empty list of pieces. -/
theorem pySplitF_ne_nil (sep : List Char) (fuel : Nat) (s : List Char) :
    pySplitF sep fuel s ≠ [] := by
  cases fuel with
  | zero => simp [pySplitF]
  | succ f =>
    cases s with
    | nil => simp [pySplitF]
    | cons c rest =>
      simp only [pySplitF]
      split
      · simp
      · split <;> simp

/-- The first piece of the split is the word up to the first occurrence
of the separator. -/
theorem pySplitF_head (sep : List Char) (hsep : sep ≠ []) :
    ∀ (fuel : Nat) (s : List Char), s.length ≤ fuel →
      (pySplitF sep fuel s).head? = some (beforeNextL sep s) := by
  intro fuel
  induction fuel with
  | zero =>
    intro s hs
    have hnil : s = [] := List.length_eq_zero.mp (Nat.le_zero.mp hs)
    subst hnil
    simp [pySplitF, beforeNextL, firstOccL_nil sep hsep]
  | succ f ih =>
    intro s hs
    cases s with
    | nil => simp [pySplitF, beforeNextL, firstOccL_nil sep hsep]
    | cons c rest =>
      have hie := ne_nil_isEmpty_false sep hsep
      cases hpre : sep.isPrefixOf (c :: rest) with
      | true =>
        simp only [pySplitF, hie, hpre, Bool.not_false, Bool.true_and, if_true,
          List.head?]
        simp [beforeNextL, firstOccL_cons, hpre]
      | false =>
        simp only [pySplitF, hie, hpre, Bool.not_false, Bool.and_false, if_false,
          Bool.false_eq_true]
        obtain ⟨g, gs, hgl⟩ :=
          List.exists_cons_of_ne_nil (pySplitF_ne_nil sep f rest)
        have hrest : rest.length ≤ f := by
          simpa using Nat.succ_le_succ_iff.mp hs
        have hhead := ih rest hrest
        rw [hgl] at hhead ⊢
        have hg : g = beforeNextL sep rest := Option.some.inj hhead
        simp only [List.head?]
        rw [hg]
        simp only [beforeNextL, firstOccL_cons, hpre, if_false, Bool.false_eq_true]
        cases hfo : firstOccL sep rest with
        | none => simp
        | some j => simp

/-- The second piece of the split is the word between the first
occurrence of the separator and the next one. -/
theorem pySplitF_getD1 (sep : List Char) (hsep : sep ≠ []) :
    ∀ (fuel : Nat) (s : List Char) (i : Nat), s.length ≤ fuel →
      firstOccL sep s = some i →
      (pySplitF sep fuel s).getD 1 [] =
        beforeNextL sep (s.drop (i + sep.length)) := by
  intro fuel
  induction fuel with
  | zero =>
    intro s i hs hfo
    have hnil : s = [] := List.length_eq_zero.mp (Nat.le_zero.mp hs)
    subst hnil
    rw [firstOccL_nil sep hsep] at hfo
    exact absurd hfo (by simp)
  | succ f ih =>
    intro s i hs hfo
    cases s with
    | nil =>
      rw [firstOccL_nil sep hsep] at hfo
      exact absurd hfo (by simp)
    | cons c rest =>
      have hie := ne_nil_isEmpty_false sep hsep
      have hseplen : 1 ≤ sep.length := by
        cases sep with
        | nil => exact absurd rfl hsep
        | cons a as => simp
      cases hpre : sep.isPrefixOf (c :: rest) with
      | true =>
        have hi : i = 0 := by
          rw [firstOccL_cons, hpre, if_pos rfl] at hfo
          exact (Option.some.inj hfo).symm
        subst hi
        simp only [pySplitF, hie, hpre, Bool.not_false, Bool.true_and, if_true,
          List.getD_cons_succ]
        have hlen : ((c :: rest).drop sep.length).length ≤ f := by
          simp only [List.length_cons] at hs
          simp only [List.length_drop, List.length_cons]
          omega
        have hh := pySplitF_head sep hsep f ((c :: rest).drop sep.length) hlen
        obtain ⟨g, gs, hgl⟩ :=
          List.exists_cons_of_ne_nil (pySplitF_ne_nil sep f ((c :: rest).drop sep.length))
        rw [hgl] at hh ⊢
        have hg : g = beforeNextL sep ((c :: rest).drop sep.length) :=
          Option.some.inj hh
        simpa [Nat.zero_add] using hg
      | false =>
        rw [firstOccL_cons, hpre] at hfo
        simp only [if_false, Bool.false_eq_true, Option.map_eq_some'] at hfo
        obtain ⟨j, hj, hji⟩ := hfo
        simp only [pySplitF, hie, hpre, Bool.and_false, if_false, Bool.false_eq_true]
        obtain ⟨g, gs, hgl⟩ :=
          List.exists_cons_of_ne_nil (pySplitF_ne_nil sep f rest)
        rw [hgl]
        have hrest : rest.length ≤ f := by
          simpa using Nat.succ_le_succ_iff.mp hs
        have hih := ih rest j hrest hj
        rw [hgl] at hih
        simp only [List.getD_cons_succ] at hih ⊢
        rw [hih]
        have hdrop : (c :: rest).drop (i + sep.length) = rest.drop (j + sep.length) := by
          have : i + sep.length = (j + sep.length) + 1 := by omega
        
          rw [this, List.drop_succ_cons]
        rw [hdrop]

/-- Mapping the pieces into strings commutes with taking the second. -/
theorem mapMk_getD (l : List (List Char)) :
    (l.map String.mk).getD 1 "" = String.mk (l.getD 1 []) := by
  match l with
  | [] => decide
  | [a] => simp [List.getD]
  | a :: b :: rest => rfl

/-- A nonempty string has a nonempty character list. -/
theorem toList_ne_nil (t : String) (ht : t ≠ "") : t.toList ≠ [] := by
  intro h
  apply ht
  apply String.ext
  simpa [String.toList] using h

/-- C3 (amended): for every list of lines and every nonempty label, the
split-on-label utility returns, for the first line containing the label,
the whitespace-trimmed segment of that line strictly between the first
occurrence of the label and the next occurrence if any (the full
remainder after the first occurrence when the label occurs only once in
the line); it returns None when no line contains the label. -/
theorem extract_value_between (lines : List String) (t : String) (ht : t ≠ "") :
    extract_value lines t =
      (lines.find? (fun l => pyIn t l)).map
        (fun l => pyStrip (String.mk
          (beforeNextL t.toList (afterFirstL t.toList l.toList)))) := by
  unfold extract_value
  cases hfind : lines.find? (fun l => pyIn t l) with
  | none => rfl
  | some l =>
    simp only [Option.map_some']
    have hin : pyIn t l = true := List.find?_some hfind
    have hsep : t.toList ≠ [] := toList_ne_nil t ht
    unfold pyIn at hin
    obtain ⟨i, hfo⟩ := Option.isSome_iff_exists.mp hin
    congr 1
    unfold pySplitStr
    rw [mapMk_getD]
    congr 1
    rw [pySplitF_getD1 t.toList hsep l.toList.length l.toList i (le_refl _) hfo]
    unfold afterFirstL
    rw [hfo]

/-! Claim theorems. -/

/-- C1: constructing a ProteoBenchParameters from a field-definition
document sets, for each key of the document that is also in the closed
field set, the field to the entry value "value" if present, else to its
"placeholder" if present and not the sentinel "-"; fields whose entry
has neither key, and fields absent from the document, remain unset. -/
theorem c1_init_from_document (doc : Document) (k : String)
    (hnd : (doc.map Prod.fst).Nodup) (hk : catalog.contains k = true) :
    (ProteoBenchParameters_init (some doc)).attrLookup k =
      match doc.lookup k with
      | some fd => entryVal fd
      | Option.none => Option.none := by
  show (doc.foldl initStep emptyRecord).attrs.lookup k = _
  rw [foldl_initStep_lookup doc emptyRecord k hnd hk]
  cases doc.lookup k with
  | none => rfl
  | some fd =>
    cases h : entryVal fd with
    | none => simp [h, emptyRecord]
    | some v => simp [h]

/-- C1 witness: on a concrete document the enzyme field is set to its
document value. -/
theorem c1_witness :
    (ProteoBenchParameters_init (some wDoc)).attrLookup "enzyme" =
      some (PyVal.str "Trypsin") := by
  have h := c1_init_from_document wDoc "enzyme" (by decide) (by decide)
  rw [h]
  decide

/-- C8: constructing a ProteoBenchParameters from a missing
field-definition document does not raise: it returns a record with every
field unset, identical to a record built with no defaulting at all. -/
theorem c8_missing_document_unset :
    ProteoBenchParameters_init Option.none = emptyRecord ∧
      ∀ k, catalog.contains k = true →
        (ProteoBenchParameters_init Option.none).getattr k = some PyVal.none := by
  constructor
  · rfl
  · intro k hk
    have hk2 : k ∈ catalog := by simpa using hk
    simp [ProteoBenchParameters_init, emptyRecord, Record.getattr, hk2]

/-- C8 witness: instantiated at the enzyme field. -/
theorem c8_witness :
    ProteoBenchParameters_init Option.none = emptyRecord ∧
      (ProteoBenchParameters_init Option.none).getattr "enzyme" =
        some PyVal.none :=
  ⟨c8_missing_document_unset.1, c8_missing_document_unset.2 "enzyme" (by decide)⟩

/-- C7 counterexample: the i2MassChroQ extractor performs no explicit
existence check on a missing path — its operation trace holds no
existence-check primitive at all; the FileNotFoundError it still yields
is discovered at the read call itself, refuting the claim that each
extractor checks existence explicitly rather than lazily. -/
theorem c7_counterexample :
    extract_params (fun _ => Option.none) "params.tsv" =
        Except.error PyErr.fileNotFound ∧
      FsOp.existsCheck "params.tsv" ∉ i2mq_fsOps "params.tsv" := by
  constructor
  · rfl
  · decide

/-- C7 (amended): on a path that does not name an existing file, both
extractors fail with a file-not-found condition before any parsing and
before any partial record is constructed; the existence check is
performed explicitly (before opening) by the Spectronaut extractor only,
while the i2MassChroQ extractor performs no existence check — its
failure is raised by its initial file-read call. -/
theorem c7_missing_file (docOpt : Option Document)
    (fsS : String → Option (List String)) (fsI : String → Option Series)
    (p : String) (h1 : fsS p = Option.none) (h2 : fsI p = Option.none) :
    read_spectronaut_settings docOpt fsS p = Except.error PyErr.fileNotFound ∧
      extract_params fsI p = Except.error PyErr.fileNotFound ∧
      (spectronaut_fsOps p).head? = some (FsOp.existsCheck p) ∧
      FsOp.existsCheck p ∉ i2mq_fsOps p := by
  refine ⟨?_, ?_, rfl, ?_⟩
  · rw [read_spectronaut_settings, h1]
  · rw [extract_params, h2]
    rfl
  · simp [i2mq_fsOps]

/-- C7 witness: instantiated at an empty file system. -/
theorem c7_witness :
    read_spectronaut_settings Option.none (fun _ => Option.none) "missing.txt" =
        Except.error PyErr.fileNotFound ∧
      extract_params (fun _ => Option.none) "missing.txt" =
        Except.error PyErr.fileNotFound ∧
      (spectronaut_fsOps "missing.txt").head? =
        some (FsOp.existsCheck "missing.txt") ∧
      FsOp.existsCheck "missing.txt" ∉ i2mq_fsOps "missing.txt" :=
  c7_missing_file Option.none (fun _ => Option.none) (fun _ => Option.none)
    "missing.txt" rfl rfl

/-- C3 counterexample: on a line where the label occurs twice, the
utility returns the segment between the two occurrences, not the
whitespace-trimmed remainder after the first occurrence as the claim
states it. -/
theorem c3_counterexample :
    extract_value ["aXbXc"] "X" = some "b" ∧
      extract_value_spec ["aXbXc"] "X" = some "bXc" ∧
      extract_value ["aXbXc"] "X" ≠ extract_value_spec ["aXbXc"] "X" := by
  decide

/-- C3 witness: the amended characterization applied to a concrete
report line. -/
theorem c3_witness : extract_value ["k: v"] ":" = some "v" := by
  have h := extract_value_between ["k: v"] ":" (by decide)
  rw [h]
  decide

/-- C2: the Spectronaut extractor violates the closed-catalog invariant:
on a well-formed settings report it assigns the attribute
predictors_library (besides scan_window and second_pass), which is not a
declared field of the ProteoBenchParameters dataclass. -/
theorem c2_extractor_leaves_catalog :
    (attrNamesOf (read_spectronaut_settings Option.none spectroFS
        "settings.txt")).contains "predictors_library" = true ∧
      (attrNamesOf (read_spectronaut_settings Option.none spectroFS
        "settings.txt")).contains "scan_window" = true ∧
      (attrNamesOf (read_spectronaut_settings Option.none spectroFS
        "settings.txt")).contains "second_pass" = true ∧
      catalog.contains "predictors_library" = false ∧
      catalog.contains "scan_window" = false ∧
      catalog.contains "second_pass" = false := by
  decide

/-- C9: the Spectronaut extractor stores the missed-cleavage setting as
the string read from the report, not as an integer, in the
integer-declared field allowed_miscleavages. -/
theorem c9_integer_field_holds_string :
    attrValOf (read_spectronaut_settings Option.none spectroFS
        "settings.txt") "allowed_miscleavages" = some (PyVal.str "2") := by
  decide

/-! Inversion helpers for the missed-cleavage override. -/

/-- Without refinement the computed missed-cleavage value is the raw
top-level cell. -/
theorem refinedCleavage_not_yes (s : Series) (mc0 rc : Cell) (mcv : PyVal)
    (hne : cellEqStr rc "yes" = false)
    (h : refinedCleavage s mc0 rc = Except.ok mcv) : mcv = cellPyVal mc0 := by
  rw [refinedCleavage, hne] at h
  simp only [if_false, Bool.false_eq_true, pure_ok_iff] at h
  exact h.symm

/-- With refinement the computed missed-cleavage value is the parsed
integer of the refinement-stage cell. -/
theorem refinedCleavage_yes (s : Series) (mc0 rc : Cell) (mcv : PyVal)
    (hyes : cellEqStr rc "yes" = true)
    (h : refinedCleavage s mc0 rc = Except.ok mcv) :
    ∃ c n, seriesGet s "refine, maximum missed cleavage sites" = some c ∧
      pyIntOfCell c = Except.ok n ∧ mcv = PyVal.int n := by
  rw [refinedCleavage, hyes] at h
  simp only [if_true, bind_ok_iff, pure_ok_iff, locE_ok_iff] at h
  obtain ⟨c, hc, n, hn, hmcv⟩ := h
  exact ⟨c, n, hc, hn, hmcv.symm⟩

/-- C4: in the i2MassChroQ extractor the missed-cleavage field passed to
the record constructor is the top-level value from the file when refine
is no, and the parsed refinement-stage value when refine is yes, with no
averaging or merging of the two. -/
theorem c4_miscleavage_override (s : Series) (f : I2mqFields)
    (hok : i2mq_compute s = Except.ok f) :
    (seriesGet s "refine" = some (some "no") →
      ∃ c, seriesGet s "scoring, maximum missed cleavage sites" = some c ∧
        f.allowed_miscleavages = cellPyVal c) ∧
    (seriesGet s "refine" = some (some "yes") →
      ∃ c n, seriesGet s "refine, maximum missed cleavage sites" = some c ∧
        pyIntOfCell c = Except.ok n ∧
        f.allowed_miscleavages = PyVal.int n) := by
  simp only [i2mq_compute, bind_ok_iff, pure_ok_iff, locE_ok_iff,
    cellStrMethod_ok_iff] at hok
  obtain ⟨fe, hfe, fuc, hfuc, fu, hfu, pm, hpm, puc1, hpuc1, pu1, hpu1,
    pp, hpp, puc2, hpuc2, pu2, hpu2, mc0, hmc0, rc, hrc, mcv, hmcv,
    ez, hez, sw, hsw, vm, hvm, ver, hver, sw2, hsw2, sev, hsev,
    t1, ht1, psm, hpsm, t2, ht2, pep, hpep, t3, ht3, prot, hprot,
    mbr, hmbr, ch, hch, n, hn, hf⟩ := hok
  constructor
  · intro hrefine
    rw [hrefine] at hrc
    have hrc2 : rc = some "no" := (Option.some.inj hrc).symm
    subst hrc2
    have hmcv2 : mcv = cellPyVal mc0 :=
      refinedCleavage_not_yes s mc0 (some "no") mcv (by decide) hmcv
    exact ⟨mc0, hmc0, by rw [← hf, hmcv2]⟩
  · intro hrefine
    rw [hrefine] at hrc
    have hrc2 : rc = some "yes" := (Option.some.inj hrc).symm
    subst hrc2
    obtain ⟨c, m, hc, hm, hmcv2⟩ :=
      refinedCleavage_yes s mc0 (some "yes") mcv (by decide) hmcv
    exact ⟨c, m, hc, hm, by rw [← hf, hmcv2]⟩

/-- C4 witness: on the concrete dump with refine disabled and top-level
value 2, the field passed as allowed_miscleavages is that value. -/
theorem c4_witness : wFields.allowed_miscleavages = PyVal.str "2" := by
  obtain ⟨c, hc, h⟩ :=
    (c4_miscleavage_override wSeries wFields (by decide)).1 (by decide)
  have hs : seriesGet wSeries "scoring, maximum missed cleavage sites" =
      some (some "2") := by decide
  rw [hs] at hc
  have hc2 : c = some "2" := (Option.some.inj hc).symm
  rw [h, hc2]
  rfl

/-- C5: the two serialized mass-tolerance fields passed to the record
constructor by the i2MassChroQ extractor have the interval form with an
explicit leading minus sign on the lower bound and the unit token from
the file normalized by replacing Daltons with Da, independently in each
tolerance field. -/
theorem c5_tolerance_interval_form (s : Series) (f : I2mqFields)
    (hok : i2mq_compute s = Except.ok f) :
    ∃ lo hi u fr fu,
      seriesGet s "spectrum, parent monoisotopic mass error minus" = some lo ∧
      seriesGet s "spectrum, parent monoisotopic mass error plus" = some hi ∧
      seriesGet s "spectrum, parent monoisotopic mass error units" =
        some (some u) ∧
      seriesGet s "spectrum, fragment monoisotopic mass error" = some fr ∧
      seriesGet s "spectrum, fragment monoisotopic mass error units" =
        some (some fu) ∧
      f.precursor_mass_tolerance = PyVal.str
        ("[-" ++ (pyStrOfCell lo ++ " " ++ pyReplace u "Daltons" "Da") ++ ", " ++
          (pyStrOfCell hi ++ " " ++ pyReplace u "Daltons" "Da") ++ "]") ∧
      f.fragment_mass_tolerance = PyVal.str
        ("[-" ++ (pyStrOfCell fr ++ " " ++ pyReplace fu "Daltons" "Da") ++ ", " ++
          (pyStrOfCell fr ++ " " ++ pyReplace fu "Daltons" "Da") ++ "]") := by
  simp only [i2mq_compute, bind_ok_iff, pure_ok_iff, locE_ok_iff,
    cellStrMethod_ok_iff] at hok
  obtain ⟨fe, hfe, fuc, hfuc, fu, hfu, pm, hpm, puc1, hpuc1, pu1, hpu1,
    pp, hpp, puc2, hpuc2, pu2, hpu2, mc0, hmc0, rc, hrc, mcv, hmcv,
    ez, hez, sw, hsw, vm, hvm, ver, hver, sw2, hsw2, sev, hsev,
    t1, ht1, psm, hpsm, t2, ht2, pep, hpep, t3, ht3, prot, hprot,
    mbr, hmbr, ch, hch, n, hn, hf⟩ := hok
  have hcell : puc1 = puc2 := Option.some.inj (hpuc1.symm.trans hpuc2)
  have hu : pu2 = pu1 := by
    subst hpu1
    subst hcell
    exact (Option.some.inj hpu2).symm
  subst hu
  refine ⟨pm, pp, pu2, fe, fu, hpm, hpp, ?_, hfe, ?_, ?_, ?_⟩
  · rw [← hpu1]
    exact hpuc1
  · rw [← hfu]
    exact hfuc
  · rw [← hf]
  · rw [← hf]

/-- C5 witness: lower 10 below, upper 10, unit ppm gives the interval
string of the claim, and a Daltons fragment unit is normalized to Da. -/
theorem c5_witness :
    wFields.precursor_mass_tolerance = PyVal.str "[-10 ppm, 10 ppm]" ∧
      wFields.fragment_mass_tolerance = PyVal.str "[-0.02 Da, 0.02 Da]" := by
  obtain ⟨lo, hi, u, fr, fu, hlo, hhi, hu, hfr, hfu, hprec, hfrag⟩ :=
    c5_tolerance_interval_form wSeries wFields (by decide)
  have h1 : seriesGet wSeries "spectrum, parent monoisotopic mass error minus" =
      some (some "10") := by decide
  have h2 : seriesGet wSeries "spectrum, parent monoisotopic mass error plus" =
      some (some "10") := by decide
  have h3 : seriesGet wSeries "spectrum, parent monoisotopic mass error units" =
      some (some "ppm") := by decide
  have h4 : seriesGet wSeries "spectrum, fragment monoisotopic mass error" =
      some (some "0.02") := by decide
  have h5 : seriesGet wSeries "spectrum, fragment monoisotopic mass error units" =
      some (some "Daltons") := by decide
  rw [h1] at hlo
  rw [h2] at hhi
  rw [h3] at hu
  rw [h4] at hfr
  rw [h5] at hfu
  have e1 : lo = some "10" := (Option.some.inj hlo).symm
  have e2 : hi = some "10" := (Option.some.inj hhi).symm
  have e3 : u = "ppm" := (Option.some.inj (Option.some.inj hu)).symm
  have e4 : fr = some "0.02" := (Option.some.inj hfr).symm
  have e5 : fu = "Daltons" := (Option.some.inj (Option.some.inj hfu)).symm
  subst e1
  subst e2
  subst e3
  subst e4
  subst e5
  rw [hprec, hfrag]
  constructor
  · rfl
  · rfl

/-- C6: the enzyme normalization of the i2MassChroQ extractor is total
and deterministic: the cleavage-site token maps to Trypsin for the
pattern with proline restriction, to Trypsin/P for the unrestricted
pattern, and every other token passes through unchanged. -/
theorem c6_enzyme_normalization (s : Series) (f : I2mqFields)
    (hok : i2mq_compute s = Except.ok f) :
    ∃ c, seriesGet s "protein, cleavage site" = some c ∧
      (pyStrOfCell c = "[RK]|\x7bP\x7d" → f.enzyme = PyVal.str "Trypsin") ∧
      (pyStrOfCell c = "[RK]" → f.enzyme = PyVal.str "Trypsin/P") ∧
      (pyStrOfCell c ≠ "[RK]|\x7bP\x7d" → pyStrOfCell c ≠ "[RK]" →
        f.enzyme = PyVal.str (pyStrOfCell c)) := by
  simp only [i2mq_compute, bind_ok_iff, pure_ok_iff, locE_ok_iff,
    cellStrMethod_ok_iff] at hok
  obtain ⟨fe, hfe, fuc, hfuc, fu, hfu, pm, hpm, puc1, hpuc1, pu1, hpu1,
    pp, hpp, puc2, hpuc2, pu2, hpu2, mc0, hmc0, rc, hrc, mcv, hmcv,
    ez, hez, sw, hsw, vm, hvm, ver, hver, sw2, hsw2, sev, hsev,
    t1, ht1, psm, hpsm, t2, ht2, pep, hpep, t3, ht3, prot, hprot,
    mbr, hmbr, ch, hch, n, hn, hf⟩ := hok
  refine ⟨ez, hez, ?_, ?_, ?_⟩
  · intro h
    rw [← hf]
    simp only [h, if_true]
  · intro h
    rw [← hf]
    have hne : pyStrOfCell ez ≠ "[RK]|\x7bP\x7d" := by
      rw [h]
      decide
    simp only [h, hne, if_true, if_false]
    simp
  · intro h1 h2
    rw [← hf]
    simp only [h1, h2, if_false]

/-- C6 witness: the proline-restricted pattern maps to Trypsin on the
concrete dump. -/
theorem c6_witness : wFields.enzyme = PyVal.str "Trypsin" := by
  obtain ⟨c, hc, h1, h2, h3⟩ :=
    c6_enzyme_normalization wSeries wFields (by decide)
  have hs : seriesGet wSeries "protein, cleavage site" =
      some (some "[RK]|\x7bP\x7d") := by decide
  rw [hs] at hc
  have hc2 : c = some "[RK]|\x7bP\x7d" := (Option.some.inj hc).symm
  subst hc2
  exact h1 (by decide)

/-- C10: the constructor of ProteoBenchParameters accepts no parameter
other than filename, so whenever the i2MassChroQ extractor reaches its
final record-construction call (every mandatory key present and every
field value computed), that call raises TypeError and the extractor
never returns a record. -/
theorem c10_constructor_type_error (fs : String → Option Series) (p : String)
    (s : Series) (f : I2mqFields) (hfs : fs p = some s)
    (hok : i2mq_compute s = Except.ok f) :
    extract_params fs p = Except.error PyErr.typeError := by
  have hall : ((i2mq_kwargs f).all (fun kv => initParamNames.contains kv.1)) =
      false := by
    rw [i2mq_kwargs, List.all_cons]
    have h1 : initParamNames.contains "software_name" = false := rfl
    simp only [h1, Bool.false_and]
  rw [extract_params, hfs]
  show (pure s >>= fun s => i2mq_compute s >>= fun f =>
    dataclassCallKwargs (i2mq_kwargs f)) = Except.error PyErr.typeError
  rw [pure_bind, hok]
  show dataclassCallKwargs (i2mq_kwargs f) = Except.error PyErr.typeError
  rw [dataclassCallKwargs, hall]
  rfl

/-- C10 witness: the extractor raises TypeError on the concrete dump
with every mandatory key present. -/
theorem c10_witness : extract_params wFS "i2m.tsv" = Except.error PyErr.typeError :=
  c10_constructor_type_error wFS "i2m.tsv" wSeries wFields rfl (by decide)
